import Mathlib

/-!
# Verification of the `boilerplate` repository

A shallow embedding, in Lean 4, of the two Python source files of the
repository (`boilerplate.py` and `all.py`), together with proofs about the
properties claimed for them.

Modelling conventions:

* A Python `str` is a Lean `String`; where index arithmetic matters we work on
  `String.data : List Char` (Python `len`, slicing and comparison are all
  per-character, which coincides with `List Char` operations).
* A file's content is a `List String`, one entry per line, each line keeping
  its trailing terminator, exactly as produced by Python's `readlines()`.
* File-system access is abstracted: `boilerplate` receives the file's lines
  as an argument instead of calling `open`/`readlines`, and receives the
  `os.path.isdir` test as a function argument.  Paths are passed already
  absolute (`os.path.abspath` is the identity on normalized absolute paths,
  and every property below is about such paths).  On POSIX `os.sep = '/'`
  and `os.altsep = None`, so the source's test
  `base_path[-1] != os.sep and base_path[-1] != os.altsep` reduces to
  `base_path[-1] != '/'` (comparison of a character with `None` is `True`).
* The `pyfiglet` third-party library is an external capability; the raw
  rendering `pyfiglet.figlet_format(name).splitlines(False)` is modelled as
  a function argument `render : String → List String`, while the wrapping
  done by the source's own `figlet` function is embedded faithfully.
-/

/-! ## Python string primitives -/

/-- Python `s == '' or s == '\n'`: the blank-line test used by `strip_lines`. -/
def pyBlank (l : String) : Bool := l == "" || l == "\n"

/-- Python `s.startswith(p)`. -/
def pyStartswith (s p : String) : Bool := p.data.isPrefixOf s.data

/-- Python `s.endswith(p)`. -/
def pyEndswith (s p : String) : Bool := p.data.isSuffixOf s.data

/-- Python `l.rstrip(' ')` on the character list: remove trailing spaces. -/
def rstripSp (l : List Char) : List Char := (l.reverse.dropWhile (· == ' ')).reverse

/-- Python `s.rstrip(' ')`. -/
def pyRstripSpaces (s : String) : String := ⟨rstripSp s.data⟩

/-- Python `s.strip()`: remove leading and trailing whitespace. -/
def pyStrip (s : String) : String :=
  ⟨((s.data.dropWhile Char.isWhitespace).reverse.dropWhile Char.isWhitespace).reverse⟩

/-- Python `s[n:]` for `n ≥ 0`. -/
def pySliceFrom (s : String) (n : Nat) : String := ⟨s.data.drop n⟩

/-- Python `s[:n]` for `n ≥ 0`. -/
def pySliceTo (s : String) (n : Nat) : String := ⟨s.data.take n⟩

/-- Index of the last occurrence of `c`, scanning with a running index. -/
def lastIndexOfAux (c : Char) (i : Nat) : List Char → Option Nat
  | [] => none
  | d :: ds =>
    match lastIndexOfAux c (i + 1) ds with
    | some j => some j
    | none => if d == c then some i else none

/-- Python `s.rfind(c)`: index of the last occurrence, `-1` when absent. -/
def pyRfind (s : String) (c : Char) : Int :=
  match lastIndexOfAux c 0 s.data with
  | some i => (i : Int)
  | none => -1

/-! ## `os.path` helpers (POSIX semantics, `sep = '/'`, `altsep = None`) -/

/-- Embeds `posixpath.splitext` (CPython `genericpath._splitext`): split the
extension at the last `'.'` that lies after the last `'/'`, unless every
character of the base name before that dot is itself a `'.'`. -/
def splitext (p : String) : String × String :=
  let cs := p.data
  let sepIndex := pyRfind p '/'
  let dotIndex := pyRfind p '.'
  if sepIndex < dotIndex then
    let d := dotIndex.toNat
    let f := (sepIndex + 1).toNat
    if ((cs.drop f).take (d - f)).any (fun ch => ch != '.') then
      (⟨cs.take d⟩, ⟨cs.drop d⟩)
    else (p, "")
  else (p, "")

/-- Embeds `posixpath.basename`: everything after the last `'/'`. -/
def pyBasename (p : String) : String := ⟨p.data.drop ((pyRfind p '/') + 1).toNat⟩

/-! ## `boilerplate.py` -/

/-- `remove_string_prefix` from `boilerplate.py`:
`s[len(prefix):] if s.startswith(prefix) else s`. -/
def remove_string_prefix (s p : String) : String :=
  if pyStartswith s p then ⟨s.data.drop p.data.length⟩ else s

/-- `remove_string_suffix` from `boilerplate.py`:
`s[:-len(suffix)] if s.endswith(suffix) else s`.  (For the empty suffix Python
would yield `s[:0] = ''`; the function is only ever called with the nonempty
suffixes `'_win32'` and `'_posix'`.) -/
def remove_string_suffix (s p : String) : String :=
  if pyEndswith s p then ⟨s.data.take (s.data.length - p.data.length)⟩ else s

/-- `split_extension` from `boilerplate.py`: `splitext`, re-applied once when
the extension is `'.in'`. -/
def split_extension (path : String) : String × String :=
  let result := splitext path
  if result.2 == ".in" then splitext result.1 else result

/-- ASCII `[a-z]`, as matched by the regex in `tu_name_from_path`. -/
def lowerAZ (c : Char) : Bool := 'a' ≤ c && c ≤ 'z'

/-- ASCII `[A-Z]`, as matched by the regex in `tu_name_from_path`. -/
def upperAZ (c : Char) : Bool := 'A' ≤ c && c ≤ 'Z'

/-- `re.sub(r'([a-z])([A-Z])', r'\1 \2', ·)`: insert a space at every
lower-to-upper transition.  (Matches of this pattern can never overlap, so the
left-to-right non-overlapping replacement is the simple scan below.) -/
def camel_split : List Char → List Char
  | [] => []
  | [c] => [c]
  | a :: b :: rest =>
    if lowerAZ a && upperAZ b then a :: ' ' :: camel_split (b :: rest)
    else a :: camel_split (b :: rest)

/-- `tu_name_from_path` from `boilerplate.py`. -/
def tu_name_from_path (path : String) : String :=
  let base_name := pyBasename path
  let name := (split_extension base_name).1
  let name := remove_string_prefix name "test_"
  let name := remove_string_prefix name "Test"
  let name := remove_string_suffix name "_win32"
  let name := remove_string_suffix name "_posix"
  let name := if base_name != "CMakeLists.txt" then (⟨camel_split name.data⟩ : String) else name
  ⟨name.data.map (fun ch => if ch == '_' then ' ' else ch)⟩

/-- `figlet` from `boilerplate.py`, with the raw `pyfiglet` rendering passed
in as `render` (see the module docstring). -/
def figlet (render : String → List String) (name comment_char : String) : List String :=
  (render name).map (fun l => comment_char ++ "* " ++ l ++ " *" ++ "\n")

/-- `LANGUAGE_MAPPING` from `boilerplate.py`. -/
def LANGUAGE_MAPPING : List (String × String) := [(".h", "C++"), (".hpp", "C++")]

/-- The `path_line_suffix` value computed inside `get_path_line`. -/
def path_line_suffix_for (path : String) : String :=
  let ext := (split_extension path).2
  let language := (LANGUAGE_MAPPING.lookup ext).getD ""
  if language.length > 0 then "*- mode: " ++ language ++ " -*-" ++ "===//" else "===//"

/-- The single line built by `get_path_line` (without the trailing newline). -/
def path_line_string (path comment_char : String) : String :=
  let path_line_suffix := path_line_suffix_for path
  let path_line := comment_char ++ "===- " ++ path ++ " "
  path_line ++ (⟨List.replicate (80 - path_line.length - path_line_suffix.length) '-'⟩ : String)
    ++ path_line_suffix

/-- `get_path_line` from `boilerplate.py`. -/
def get_path_line (path comment_char : String) : List String :=
  [path_line_string path comment_char ++ "\n"]

/-- `get_license` from `boilerplate.py`. -/
def get_license (comment_char : String) (license_text : List String) : List String :=
  let out_lines := license_text.map (fun l => comment_char ++ " " ++ l)
  out_lines.map (fun l => pyRstripSpaces l)

/-- `COMMENT_MAPPING` from `boilerplate.py`. -/
def COMMENT_MAPPING : List (String × String) :=
  [(".cpp", "//"), (".c", "//"), (".C", "//"), (".cxx", "//"), (".js", "//"),
   (".txt", "#"), (".h", "//"), (".hpp", "//"), (".py", "# ")]

/-- The blank-deletion `while` loop of `strip_lines` (deleting at the scan
position while the line there is `''` or `'\n'`). -/
def delBlanks : List String → List String
  | [] => []
  | l :: ls => if pyBlank l then delBlanks ls else l :: ls

/-- `stop_str = comment_str + comment_str[0]` from `strip_lines`.  (Python
raises `IndexError` on an empty `comment_str`; the function is never reached
with one.) -/
def stop_str (comment_str : String) : String :=
  match comment_str.data with
  | [] => comment_str
  | ch :: _ => comment_str.push ch

/-- The comment-deletion `while` loop of `strip_lines` (deleting at the scan
position while the line there starts with `comment_str` but not with
`stop_str`). -/
def delComments (comment_str stop : String) : List String → List String
  | [] => []
  | l :: ls =>
    if pyStartswith l comment_str && !pyStartswith l stop then delComments comment_str stop ls
    else l :: ls

/-- `strip_lines(lines, 0, comment_str)` from `boilerplate.py`: the two
`while` loops deleting at index `0`. -/
def strip_lines_front (lines : List String) (comment_str : String) : List String :=
  delComments comment_str (stop_str comment_str) (delBlanks lines)

/-- `strip_lines(lines, -1, comment_str)` from `boilerplate.py`: the two
`while` loops deleting at index `-1`, i.e. the front loops on the reversed
list. -/
def strip_lines_back (lines : List String) (comment_str : String) : List String :=
  (delComments comment_str (stop_str comment_str) (delBlanks lines.reverse)).reverse

/-- `strip_leading_and_trailing_lines` from `boilerplate.py`. -/
def strip_leading_and_trailing_lines (lines : List String) (comment : String) : List String :=
  let c := pyStrip comment
  strip_lines_back (strip_lines_front lines c) c

/-- The shebang detection of `boilerplate`:
`lines[0] if len(lines) > 0 and lines[0].startswith('#!') else None`. -/
def get_shebang (lines : List String) : Option String :=
  match lines with
  | [] => none
  | l :: _ => if pyStartswith l "#!" then some l else none

/-- The `del lines[0]` performed by `boilerplate` when a shebang was found. -/
def drop_shebang (lines : List String) : List String :=
  match lines with
  | [] => []
  | l :: ls => if pyStartswith l "#!" then ls else l :: ls

/-- The comment-character resolution at the top of `boilerplate`:
an explicit `comment_char` wins, otherwise
`COMMENT_MAPPING.get(split_extension(path)[1], '#')`. -/
def resolve_comment (path : String) (comment_char : Option String) : String :=
  match comment_char with
  | some c => c
  | none => (COMMENT_MAPPING.lookup (split_extension path).2).getD "#"

/-- The separator normalization of `boilerplate`: append `os.sep` when the
base path's last character is not `'/'` (see the module docstring for
`os.altsep = None`). -/
def normalize_base (base_path : String) : String :=
  match base_path.data.getLast? with
  | some ch => if ch != '/' then base_path ++ "/" else base_path
  | none => base_path ++ "/"

/-- The relative subpath computed by `boilerplate`:
`path[len(base_path):]` after separator normalization, with one trailing
`'.in'` removed (`subpath[:-len('.in')]`) when present. -/
def subpath_of (path base_path : String) : String :=
  let bp := normalize_base base_path
  let subpath := pySliceFrom path bp.length
  if pyEndswith subpath ".in" then (⟨subpath.data.take (subpath.data.length - 3)⟩ : String)
  else subpath

/-- The `line_of_dashes` local of `boilerplate`. -/
def line_of_dashes (comment_char : String) : String :=
  comment_char ++ "===" ++ (⟨List.replicate 70 '-'⟩ : String) ++ "===//" ++ "\n"

/-- `boilerplate` from `boilerplate.py`.  `isdir` abstracts
`os.path.isdir`, `render` abstracts the raw `pyfiglet` rendering, and
`content` carries the lines the source reads from the file; the two
`raise RuntimeError` statements become `Except.error`. -/
def boilerplate (isdir : String → Bool) (render : String → List String)
    (path base_path : String) (license_text : List String)
    (comment_char : Option String) (figlet_enabled : Bool)
    (content : List String) : Except String (List String) :=
  let cc := resolve_comment path comment_char
  if !isdir base_path then .error "base path must be a directory"
  else
    let bp := normalize_base base_path
    if pySliceTo path bp.length != bp then .error "path was not inside base-path"
    else
      let subpath := subpath_of path base_path
      let shebang := get_shebang content
      let lines := drop_shebang content
      let lines := strip_leading_and_trailing_lines lines cc
      let tu_name := tu_name_from_path subpath
      let prolog := (match shebang with | some s => [s] | none => [])
      let prolog := prolog ++ get_path_line subpath cc
      let prolog :=
        prolog ++ (if figlet_enabled then figlet render tu_name cc ++ [line_of_dashes cc] else [])
      let prolog := prolog ++ get_license cc license_text
      let prolog := prolog ++ [line_of_dashes cc]
      .ok (prolog ++ lines)

/-! ## `all.py` -/

/-- The fixed glob-pattern list of `all.py`'s `main`. -/
def patterns : List String :=
  ["*.cmake", "*.cpp", "*.h", "*.hpp", "*.hpp.in", "*.js", "*.py",
   "CMakeLists.txt", "Doxyfile.in"]

/-- Glob matching on character lists: `'*'` matches any sequence, `'?'` any
single character, anything else itself.  This is `fnmatch`'s semantics for
patterns built from `'*'`, `'?'` and literal characters (all nine patterns
above are of that shape, and POSIX `normcase` is the identity). -/
def globMatch : List Char → List Char → Bool
  | [], s => s.isEmpty
  | c :: ps, s =>
    if c == '*' then s.tails.any (fun t => globMatch ps t)
    else if c == '?' then
      match s with
      | [] => false
      | _ :: s' => globMatch ps s'
    else
      match s with
      | [] => false
      | d :: s' => c == d && globMatch ps s'

/-- `fnmatch.fnmatch(file_name, pattern)` on POSIX. -/
def fnmatch (file_name pat : String) : Bool := globMatch pat.data file_name.data

/-- The path built for a directory-walk entry:
`os.path.relpath(os.path.join(root, file_name))`, where `root` stands for the
walk directory's path relative to the working directory (which is exactly
what `relpath(join(...))` yields for files below the working directory). -/
def pyJoin (root file_name : String) : String := root ++ "/" ++ file_name

/-- The selection double loop of `all.py`'s `main` for one directory of the
walk: for every pattern, every file whose path is not excluded and whose name
matches the pattern is appended to the work list. -/
def select_paths (root : String) (files : List String) (exclude_files : List String) :
    List String :=
  (patterns.map (fun pat =>
    (files.filter (fun fn =>
      !(exclude_files.contains (pyJoin root fn)) && fnmatch fn pat)).map
        (fun fn => pyJoin root fn))).flatten

/-- A glob pattern fragment with no wildcard characters. -/
def litPat (l : List Char) : Bool := l.all (fun c => !(c == '*') && !(c == '?'))

/-- A sufficient, decidable condition for two glob patterns (each either a
literal or `'*'` followed by a literal) to have no common match. -/
def patDisjointTest (p q : String) : Bool :=
  if p.data.head? = some '*' then
    if q.data.head? = some '*' then
      litPat p.data.tail && litPat q.data.tail &&
        !(p.data.tail.isSuffixOf q.data.tail) && !(q.data.tail.isSuffixOf p.data.tail)
    else litPat p.data.tail && litPat q.data && !(p.data.tail.isSuffixOf q.data)
  else
    if q.data.head? = some '*' then
      litPat p.data && litPat q.data.tail && !(q.data.tail.isSuffixOf p.data)
    else litPat p.data && litPat q.data && !(p == q)

/-! ## Decidability of the result type -/

instance : DecidableEq (Except String (List String)) := fun x y =>
  match x, y with
  | .ok a, .ok b =>
    if h : a = b then isTrue (by rw [h]) else isFalse (fun he => by cases he; exact h rfl)
  | .error a, .error b =>
    if h : a = b then isTrue (by rw [h]) else isFalse (fun he => by cases he; exact h rfl)
  | .ok _, .error _ => isFalse (fun he => by cases he)
  | .error _, .ok _ => isFalse (fun he => by cases he)

/-! ## C4: the concrete single-file scenario -/

/-- C4: with base path `/proj`, file `/proj/src/Foo_win32.cpp` containing the
single body line `int x;\n`, license lines `["MIT\n"]` and the banner
disabled, the composed output is exactly the 80-character path line for
`src/Foo_win32.cpp` (the `_win32` suffix stays in the shown path), then
`// MIT`, then the full-width separator line, then `int x;\n`. -/
theorem c4_concrete_scenario :
    boilerplate (fun p => p == "/proj") (fun _ => []) "/proj/src/Foo_win32.cpp" "/proj"
        ["MIT\n"] none false ["int x;\n"] =
      Except.ok
        ["//===- src/Foo_win32.cpp --------------------------------------------------===//\n",
         "// MIT\n",
         "//===----------------------------------------------------------------------===//\n",
         "int x;\n"] ∧
    (path_line_string "src/Foo_win32.cpp" "//").length = 80 ∧
    get_path_line "src/Foo_win32.cpp" "//" =
      ["//===- src/Foo_win32.cpp --------------------------------------------------===//\n"] := by
  decide

/-! ## C6: `.in`-suffix handling -/

/-- C6: for `/proj/Config.hpp.in` under base path `/proj`, exactly one
trailing `.in` is stripped for the banner subpath (giving `Config.hpp`), and
the comment style is derived from the extension after `.in` removal
(`.hpp`, giving `//`).  The `A.in.in` case shows that only one `.in` is
stripped from the subpath. -/
theorem c6_in_suffix :
    resolve_comment "/proj/Config.hpp.in" none = "//" ∧
    subpath_of "/proj/Config.hpp.in" "/proj" = "Config.hpp" ∧
    boilerplate (fun p => p == "/proj") (fun _ => []) "/proj/Config.hpp.in" "/proj"
        ["MIT\n"] none false ["x\n"] =
      Except.ok
        (get_path_line "Config.hpp" "//" ++
          ["// MIT\n", line_of_dashes "//", "x\n"]) ∧
    subpath_of "/proj/A.in.in" "/proj" = "A.in" := by
  decide

/-! ## C7: translation-unit display names -/

/-- C7: display-name derivation: `test_my_file.cpp → my file` and
`TestMyWidget.cpp → My Widget`; the `CMakeLists.txt` base name skips the
CamelCase split, and `_win32` / `_posix` suffixes are stripped. -/
theorem c7_tu_names :
    tu_name_from_path "test_my_file.cpp" = "my file" ∧
    tu_name_from_path "TestMyWidget.cpp" = "My Widget" ∧
    tu_name_from_path "CMakeLists.txt" = "CMakeLists" ∧
    tu_name_from_path "Foo_win32.cpp" = "Foo" ∧
    tu_name_from_path "Foo_posix.cpp" = "Foo" := by
  decide

/-! ## C2: the path banner line -/

theorem pyEndswith_append (a b : String) : pyEndswith (a ++ b) b = true := by
  rw [pyEndswith, List.isSuffixOf_iff_suffix, String.data_append]
  exact List.suffix_append _ _

set_option maxRecDepth 4096 in
/-- C2 (counterexample): for a long enough subpath the path line is longer
than 80 characters — `'-' * n` is empty for negative `n`, but the fixed parts
still exceed 80.  Here the 68-character subpath gives an 81-character line. -/
theorem c2_counterexample :
    (path_line_string
      "aaaaaaaaaaaaaaaaaaaaaaaaaaaaaaaaaaaaaaaaaaaaaaaaaaaaaaaaaaaaaaaa.cpp" "//").length
      ≠ 80 := by
  decide

/-- C2 (amended): whenever the comment prefix, the fixed decoration, the
subpath and the suffix fit within 80 characters, the emitted path line has
length exactly 80 before its trailing newline; its suffix is `===//`, or
`*- mode: C++ -*-===//` exactly for the header extensions `.h` and `.hpp`. -/
theorem c2_path_line_length (path cc : String)
    (hfit : cc.length + 6 + path.length + (path_line_suffix_for path).length ≤ 80) :
    (path_line_string path cc).length = 80 ∧
    pyEndswith (path_line_string path cc) (path_line_suffix_for path) = true ∧
    (((split_extension path).2 = ".h" ∨ (split_extension path).2 = ".hpp") →
      path_line_suffix_for path = "*- mode: C++ -*-===//") ∧
    (((split_extension path).2 ≠ ".h" ∧ (split_extension path).2 ≠ ".hpp") →
      path_line_suffix_for path = "===//") := by
  refine ⟨?_, ?_, ?_, ?_⟩
  · simp only [path_line_string, String.length_append]
    have hm : ∀ l : List Char, (⟨l⟩ : String).length = l.length := fun _ => rfl
    have hL : ∀ s : String, s.length = s.data.length := fun _ => rfl
    simp only [hm, List.length_replicate, List.length_cons, List.length_nil]
    simp only [hL] at hfit ⊢
    omega
  · exact pyEndswith_append _ _
  · rintro (h | h) <;>
      simp [path_line_suffix_for, LANGUAGE_MAPPING, List.lookup, h] <;> decide
  · rintro ⟨h1, h2⟩
    simp [path_line_suffix_for, LANGUAGE_MAPPING, List.lookup,
      beq_eq_false_iff_ne.mpr h1, beq_eq_false_iff_ne.mpr h2]

theorem c2_witness :
    ("//".length + 6 + "a.cpp".length + (path_line_suffix_for "a.cpp").length ≤ 80) ∧
    (path_line_string "a.cpp" "//").length = 80 := by
  refine ⟨by decide, ?_⟩
  exact (c2_path_line_length "a.cpp" "//" (by decide)).1

/-! ## C3: the stripping loops -/

theorem delBlanks_eq_dropWhile (lines : List String) :
    delBlanks lines = lines.dropWhile pyBlank := by
  induction lines with
  | nil => rfl
  | cons l ls ih =>
    rw [delBlanks, List.dropWhile_cons]
    cases h : pyBlank l <;> simp [h, ih]

theorem delComments_eq_dropWhile (c stop : String) (lines : List String) :
    delComments c stop lines =
      lines.dropWhile (fun l => pyStartswith l c && !pyStartswith l stop) := by
  induction lines with
  | nil => rfl
  | cons l ls ih =>
    rw [delComments, List.dropWhile_cons]
    cases h : pyStartswith l c && !pyStartswith l stop <;> simp [h, ih]

/-- C3 (counterexample): with prefix `//` the separator-style line `///a\n`
(which begins with `stop_str = '///'`) is *retained* — it stops the scan and
is not deleted — while the line `//a\n` (which begins with the prefix but not
with `prefix+prefix[0]`) is *deleted* rather than stopping the scan.  Both
directions contradict the claim's reading of the conditions. -/
theorem c3_counterexample :
    strip_leading_and_trailing_lines ["///a\n", "x\n"] "//" = ["///a\n", "x\n"] ∧
    pyStartswith "///a\n" (stop_str "//") = true ∧
    strip_leading_and_trailing_lines ["//a\n", "x\n"] "//" = ["x\n"] ∧
    pyStartswith "//a\n" "//" = true ∧
    pyStartswith "//a\n" (stop_str "//") = false := by
  decide

/-- C3 (amended): each stripping pass first deletes blank lines, then deletes
consecutive lines that begin with the comment prefix but do **not** begin
with `prefix+prefix[0]`; the scan stops at (and retains) the first line that
begins with `prefix+prefix[0]` or does not begin with the prefix at all.
The backward pass does the same from the end of the list. -/
theorem c3_strip_conditions (lines : List String) (c : String) :
    strip_lines_front lines c =
      (lines.dropWhile pyBlank).dropWhile
        (fun l => pyStartswith l c && !pyStartswith l (stop_str c)) ∧
    strip_lines_back lines c =
      ((lines.reverse.dropWhile pyBlank).dropWhile
        (fun l => pyStartswith l c && !pyStartswith l (stop_str c))).reverse := by
  constructor <;>
    simp [strip_lines_front, strip_lines_back, delBlanks_eq_dropWhile, delComments_eq_dropWhile]

/-! ## Unfolding `boilerplate` on its success and failure paths -/

theorem boilerplate_ok (isdir : String → Bool) (render : String → List String)
    (path base_path : String) (license_text : List String)
    (ccOpt : Option String) (fig : Bool) (content : List String)
    (h1 : isdir base_path = true)
    (h2 : pySliceTo path (normalize_base base_path).length = normalize_base base_path) :
    boilerplate isdir render path base_path license_text ccOpt fig content =
      Except.ok
        ((match get_shebang content with | some s => [s] | none => []) ++
          get_path_line (subpath_of path base_path) (resolve_comment path ccOpt) ++
          (if fig then
            figlet render (tu_name_from_path (subpath_of path base_path))
                (resolve_comment path ccOpt) ++
              [line_of_dashes (resolve_comment path ccOpt)]
           else []) ++
          get_license (resolve_comment path ccOpt) license_text ++
          [line_of_dashes (resolve_comment path ccOpt)] ++
          strip_leading_and_trailing_lines (drop_shebang content)
            (resolve_comment path ccOpt)) := by
  simp [boilerplate, h1, h2]

theorem boilerplate_error_dir (isdir : String → Bool) (render : String → List String)
    (path base_path : String) (license_text : List String)
    (ccOpt : Option String) (fig : Bool) (content : List String)
    (h1 : isdir base_path = false) :
    boilerplate isdir render path base_path license_text ccOpt fig content =
      Except.error "base path must be a directory" := by
  simp [boilerplate, h1]

theorem boilerplate_error_inside (isdir : String → Bool) (render : String → List String)
    (path base_path : String) (license_text : List String)
    (ccOpt : Option String) (fig : Bool) (content : List String)
    (h1 : isdir base_path = true)
    (h2 : pySliceTo path (normalize_base base_path).length ≠ normalize_base base_path) :
    boilerplate isdir render path base_path license_text ccOpt fig content =
      Except.error "path was not inside base-path" := by
  simp [boilerplate, h1, h2]

/-! ## C8: configuration errors -/

/-- C8: the compose operation fails with a configuration error when the base
path is not a directory, and fails with a configuration error when the file
path does not lie under the base path (string-prefix comparison after
normalizing the base path to end with a separator); in both cases no header
is produced. -/
theorem c8_configuration_errors (isdir : String → Bool) (render : String → List String)
    (path base_path : String) (license_text : List String)
    (ccOpt : Option String) (fig : Bool) (content : List String) :
    (isdir base_path = false →
      boilerplate isdir render path base_path license_text ccOpt fig content =
        Except.error "base path must be a directory") ∧
    (isdir base_path = true →
      pySliceTo path (normalize_base base_path).length ≠ normalize_base base_path →
      boilerplate isdir render path base_path license_text ccOpt fig content =
        Except.error "path was not inside base-path") := by
  exact ⟨boilerplate_error_dir isdir render path base_path license_text ccOpt fig content,
    boilerplate_error_inside isdir render path base_path license_text ccOpt fig content⟩

theorem c8_witness :
    (((fun (_ : String) => false) "/b" = false) ∧
      boilerplate (fun _ => false) (fun _ => []) "/b/a.cpp" "/b" [] none false [] =
        Except.error "base path must be a directory") ∧
    (((fun (_ : String) => true) "/b" = true) ∧
      pySliceTo "/x/a.cpp" (normalize_base "/b").length ≠ normalize_base "/b" ∧
      boilerplate (fun _ => true) (fun _ => []) "/x/a.cpp" "/b" [] none false [] =
        Except.error "path was not inside base-path") := by
  refine ⟨⟨rfl, ?_⟩, ⟨rfl, by decide, ?_⟩⟩
  · exact (c8_configuration_errors (fun _ => false) (fun _ => []) "/b/a.cpp" "/b" [] none false
      []).1 rfl
  · exact (c8_configuration_errors (fun _ => true) (fun _ => []) "/x/a.cpp" "/b" [] none false
      []).2 rfl (by decide)

/-! ## C10: sibling directories that extend the base path's name -/

/-- C10: because the base path is normalized to end with a separator before
the prefix comparison, a file inside a *sibling* directory whose name merely
extends the base directory's name (e.g. `/projx/a.cpp` against base `/proj`)
is rejected with a configuration error. -/
theorem c10_sibling_rejected (isdir : String → Bool) (render : String → List String)
    (base_path ext n : String) (license_text : List String)
    (ccOpt : Option String) (fig : Bool) (content : List String) (hch : Char)
    (hdir : isdir base_path = true)
    (hlast : base_path.data.getLast? ≠ some '/')
    (hext : ext.data.head? = some hch)
    (hslash : hch ≠ '/') :
    boilerplate isdir render (base_path ++ ext ++ "/" ++ n) base_path license_text ccOpt fig
        content =
      Except.error "path was not inside base-path" := by
  have hbp : normalize_base base_path = base_path ++ "/" := by
    rw [normalize_base]
    cases hgl : base_path.data.getLast? with
    | none => rfl
    | some ch =>
      have hne : ch ≠ '/' := fun h => hlast (by rw [hgl, h])
      simp [hne]
  apply boilerplate_error_inside isdir render _ base_path license_text ccOpt fig content hdir
  rw [hbp]
  intro heq
  have hlen : (base_path ++ "/").length = base_path.data.length + 1 := by
    simp [String.length_append]
    rfl
  have hdata := congrArg String.data heq
  obtain ⟨t, ht⟩ : ∃ t, ext.data = hch :: t := by
    cases hx : ext.data with
    | nil => rw [hx] at hext; cases hext
    | cons a l =>
      rw [hx] at hext
      rw [List.head?_cons] at hext
      exact ⟨l, by rw [Option.some.inj hext]⟩
  rw [pySliceTo, hlen] at hdata
  have hsplit : (base_path ++ ext ++ "/" ++ n).data =
      base_path.data ++ (hch :: (t ++ ('/' :: n.data))) := by
    simp [String.data_append, ht]
  rw [hsplit] at hdata
  have hslice : (base_path.data ++ (hch :: (t ++ ('/' :: n.data)))).take
      (base_path.data.length + 1) = base_path.data ++ [hch] := by
    have := @List.take_append Char base_path.data (hch :: (t ++ ('/' :: n.data))) 1
    simpa using this
  rw [hslice] at hdata
  have hrhs : (base_path ++ "/").data = base_path.data ++ ['/'] := by
    simp [String.data_append]
  rw [hrhs] at hdata
  have := List.append_cancel_left hdata
  simp at this
  exact hslash this

theorem c10_witness :
    ((fun (p : String) => p == "/proj") "/proj" = true) ∧
    ("/proj" ++ "x" ++ "/" ++ "a.cpp" = "/projx/a.cpp") ∧
    boilerplate (fun p => p == "/proj") (fun _ => []) ("/proj" ++ "x" ++ "/" ++ "a.cpp") "/proj"
        ["MIT\n"] none false ["x\n"] =
      Except.error "path was not inside base-path" := by
  refine ⟨by decide, by decide, ?_⟩
  exact c10_sibling_rejected (fun p => p == "/proj") (fun _ => []) "/proj" "x" "a.cpp"
    ["MIT\n"] none false ["x\n"] 'x' (by decide) (by decide) (by decide) (by decide)

/-! ## C5: shebang preservation -/

/-- C5: whenever the input's first line begins with `#!` and composition
succeeds, the output begins with that exact line unchanged, immediately
followed by the path banner line; the shebang line is detached before the
stripping step, so it is never counted as boilerplate. -/
theorem c5_shebang_preserved (isdir : String → Bool) (render : String → List String)
    (path base_path : String) (license_text : List String)
    (ccOpt : Option String) (fig : Bool) (s : String) (body out : List String)
    (hsb : pyStartswith s "#!" = true)
    (hok : boilerplate isdir render path base_path license_text ccOpt fig (s :: body) =
      Except.ok out) :
    ∃ rest,
      out = s ::
        (path_line_string (subpath_of path base_path) (resolve_comment path ccOpt) ++ "\n") ::
          rest := by
  by_cases h1 : isdir base_path = true
  · by_cases h2 :
      pySliceTo path (normalize_base base_path).length = normalize_base base_path
    · rw [boilerplate_ok isdir render path base_path license_text ccOpt fig (s :: body) h1 h2]
        at hok
      have hsh : get_shebang (s :: body) = some s := by simp [get_shebang, hsb]
      have hds : drop_shebang (s :: body) = body := by simp [drop_shebang, hsb]
      have hout := (Except.ok.inj hok).symm
      refine ⟨(if fig then
          figlet render (tu_name_from_path (subpath_of path base_path))
              (resolve_comment path ccOpt) ++
            [line_of_dashes (resolve_comment path ccOpt)]
         else []) ++
        get_license (resolve_comment path ccOpt) license_text ++
        [line_of_dashes (resolve_comment path ccOpt)] ++
        strip_leading_and_trailing_lines body (resolve_comment path ccOpt), ?_⟩
      rw [hout, hsh, hds, get_path_line]
      simp
    · rw [boilerplate_error_inside isdir render path base_path license_text ccOpt fig
        (s :: body) h1 h2] at hok
      cases hok
  · rw [boilerplate_error_dir isdir render path base_path license_text ccOpt fig (s :: body)
      (Bool.not_eq_true _ ▸ (by simpa using h1))] at hok
    cases hok

theorem c5_witness :
    (pyStartswith "#!/usr/bin/env python3\n" "#!" = true) ∧
    ∃ rest,
      ["#!/usr/bin/env python3\n",
       "# ===- t.py ---------------------------------------------------------------===//\n",
       "#  MIT\n",
       "# ===----------------------------------------------------------------------===//\n",
       "x\n"] =
        "#!/usr/bin/env python3\n" ::
          (path_line_string (subpath_of "/b/t.py" "/b") (resolve_comment "/b/t.py" none) ++ "\n")
            :: rest := by
  refine ⟨by decide, ?_⟩
  exact c5_shebang_preserved (fun p => p == "/b") (fun _ => []) "/b/t.py" "/b" ["MIT\n"]
    none false "#!/usr/bin/env python3\n" ["x\n"] _ (by decide) (by decide)

/-! ## C9: exactly-once selection in the bulk run -/

theorem globMatch_lit (σ : List Char) (hσ : litPat σ = true) :
    ∀ s : List Char, globMatch σ s = true ↔ s = σ := by
  induction σ with
  | nil => intro s; simp [globMatch, List.isEmpty_iff]
  | cons c ps ih =>
    intro s
    rw [litPat, List.all_cons] at hσ
    obtain ⟨hc, hps⟩ := Bool.and_eq_true_iff.mp hσ
    obtain ⟨hstar, hqm⟩ := Bool.and_eq_true_iff.mp hc
    have hcs : (c == '*') = false := by simpa using hstar
    have hcq : (c == '?') = false := by simpa using hqm
    cases s with
    | nil => simp [globMatch, hcs, hcq]
    | cons d s' =>
      have hred : globMatch (c :: ps) (d :: s') = (c == d && globMatch ps s') := by
        simp [globMatch, hcs, hcq]
      rw [hred]
      constructor
      · intro h
        obtain ⟨hcd, hm⟩ := Bool.and_eq_true_iff.mp h
        have hs := (ih hps s').mp hm
        rw [hs, beq_iff_eq.mp hcd]
      · intro h
        injection h with h1 h2
        exact Bool.and_eq_true_iff.mpr
          ⟨beq_iff_eq.mpr h1.symm, (ih hps s').mpr h2⟩

theorem globMatch_star (σ : List Char) (hσ : litPat σ = true) (s : List Char) :
    globMatch ('*' :: σ) s = true ↔ σ <:+ s := by
  have hstep : globMatch ('*' :: σ) s = s.tails.any (fun t => globMatch σ t) := by
    simp [globMatch]
  rw [hstep, List.any_eq_true]
  constructor
  · rintro ⟨t, ht, hm⟩
    rw [globMatch_lit σ hσ t] at hm
    exact hm ▸ (List.mem_tails _ _).mp ht
  · intro h
    exact ⟨σ, (List.mem_tails _ _).mpr h, (globMatch_lit σ hσ σ).mpr rfl⟩

theorem fnmatch_star (p n : String) (σ : List Char) (hp : p.data = '*' :: σ)
    (hσ : litPat σ = true) : fnmatch n p = true ↔ σ <:+ n.data := by
  rw [fnmatch, hp]
  exact globMatch_star σ hσ n.data

theorem fnmatch_lit (p n : String) (hp : litPat p.data = true) :
    fnmatch n p = true ↔ n.data = p.data := by
  rw [fnmatch]
  exact globMatch_lit p.data hp n.data

theorem star_shape (p : String) (hp : p.data.head? = some '*') :
    p.data = '*' :: p.data.tail := by
  cases hx : p.data with
  | nil => rw [hx] at hp; cases hp
  | cons a l =>
    rw [hx, List.head?_cons] at hp
    rw [Option.some.inj hp]
    rfl

theorem suffix_common (a b m : List Char) (ha : a <:+ m) (hb : b <:+ m)
    (hab : a.isSuffixOf b = false) (hba : b.isSuffixOf a = false) : False := by
  rcases List.prefix_or_prefix_of_prefix (List.reverse_prefix.mpr ha)
      (List.reverse_prefix.mpr hb) with h | h
  · have : a <:+ b := by
      rw [← List.reverse_prefix]; exact h
    rw [← List.isSuffixOf_iff_suffix, hab] at this
    cases this
  · have : b <:+ a := by
      rw [← List.reverse_prefix]; exact h
    rw [← List.isSuffixOf_iff_suffix, hba] at this
    cases this

theorem disj_of_test (p q : String) (h : patDisjointTest p q = true) (m : String) :
    ¬(fnmatch m p = true ∧ fnmatch m q = true) := by
  rintro ⟨h1, h2⟩
  rw [patDisjointTest] at h
  by_cases hp : p.data.head? = some '*'
  · by_cases hq : q.data.head? = some '*'
    · rw [if_pos hp, if_pos hq] at h
      simp only [Bool.and_eq_true, Bool.not_eq_true'] at h
      obtain ⟨⟨⟨hla, hlb⟩, hab⟩, hba⟩ := h
      rw [fnmatch_star p m p.data.tail (star_shape p hp) hla] at h1
      rw [fnmatch_star q m q.data.tail (star_shape q hq) hlb] at h2
      exact suffix_common _ _ _ h1 h2 hab hba
    · rw [if_pos hp, if_neg hq] at h
      simp only [Bool.and_eq_true, Bool.not_eq_true'] at h
      obtain ⟨⟨hla, hlq⟩, hns⟩ := h
      rw [fnmatch_star p m p.data.tail (star_shape p hp) hla] at h1
      rw [fnmatch_lit q m hlq] at h2
      rw [h2] at h1
      rw [← List.isSuffixOf_iff_suffix, hns] at h1
      cases h1
  · by_cases hq : q.data.head? = some '*'
    · rw [if_neg hp, if_pos hq] at h
      simp only [Bool.and_eq_true, Bool.not_eq_true'] at h
      obtain ⟨⟨hlp, hlb⟩, hns⟩ := h
      rw [fnmatch_lit p m hlp] at h1
      rw [fnmatch_star q m q.data.tail (star_shape q hq) hlb] at h2
      rw [h1] at h2
      rw [← List.isSuffixOf_iff_suffix, hns] at h2
      cases h2
    · rw [if_neg hp, if_neg hq] at h
      simp only [Bool.and_eq_true, Bool.not_eq_true'] at h
      obtain ⟨⟨hlp, hlq⟩, hne⟩ := h
      rw [fnmatch_lit p m hlp] at h1
      rw [fnmatch_lit q m hlq] at h2
      rw [h1] at h2
      have : p = q := by
        cases p; cases q; cases h2; rfl
      rw [this] at hne
      simp at hne

theorem pyJoin_injective (root : String) : Function.Injective (fun fn => pyJoin root fn) := by
  intro a b hab
  have hd := congrArg String.data hab
  simp only [pyJoin, String.data_append] at hd
  have := List.append_cancel_left hd
  cases a; cases b; cases this; rfl

theorem countP_le_one_of_pairwise {α : Type} (l : List α) (f : α → Bool)
    (h : l.Pairwise (fun p q => ¬(f p = true ∧ f q = true))) : l.countP f ≤ 1 := by
  induction l with
  | nil => simp
  | cons p ps ih =>
    rw [List.countP_cons]
    rcases List.pairwise_cons.mp h with ⟨hhead, htail⟩
    cases hf : f p with
    | false => simpa using ih htail
    | true =>
      have hz : ps.countP f = 0 := by
        rw [List.countP_eq_zero]
        exact fun a ha hfa => hhead a ha ⟨hf, hfa⟩
      simp [hz, hf]

theorem select_count_aux (root : String) (files exclude_files : List String) (fn : String)
    (hnd : files.Nodup) (hmem : fn ∈ files) (ps : List String)
    (hpw : ps.Pairwise (fun p q => ∀ m, ¬(fnmatch m p = true ∧ fnmatch m q = true))) :
    ((ps.map (fun pat =>
      (files.filter (fun f =>
        !(exclude_files.contains (pyJoin root f)) && fnmatch f pat)).map
          (fun f => pyJoin root f))).flatten).count (pyJoin root fn) =
      if !(exclude_files.contains (pyJoin root fn)) && ps.any (fun p => fnmatch fn p) then 1
      else 0 := by
  induction ps with
  | nil => simp
  | cons p ps ih =>
    rcases List.pairwise_cons.mp hpw with ⟨hhead, htail⟩
    rw [List.map_cons, List.flatten_cons, List.count_append]
    have hone : ((files.filter (fun f =>
        !(exclude_files.contains (pyJoin root f)) && fnmatch f p)).map
          (fun f => pyJoin root f)).count (pyJoin root fn) =
        if !(exclude_files.contains (pyJoin root fn)) && fnmatch fn p then 1 else 0 := by
      rw [List.count_map_of_injective _ _ (pyJoin_injective root)]
      by_cases hc : (!(exclude_files.contains (pyJoin root fn)) && fnmatch fn p) = true
      · rw [if_pos hc]
        rw [@List.count_filter String _ _
          (fun f => !(exclude_files.contains (pyJoin root f)) && fnmatch f p) fn files hc]
        exact List.count_eq_one_of_mem hnd hmem
      · rw [if_neg hc]
        apply List.count_eq_zero_of_not_mem
        rw [List.mem_filter]
        rintro ⟨-, hpred⟩
        exact hc hpred
    rw [hone, ih htail, List.any_cons]
    cases he : exclude_files.contains (pyJoin root fn) with
    | true => simp
    | false =>
      cases hm : fnmatch fn p with
      | true =>
        have hrest : ps.any (fun q => fnmatch fn q) = false := by
          rw [List.any_eq_false]
          exact fun q hq hfq => hhead q hq fn ⟨hm, hfq⟩
        rw [hrest]
        simp
      | false => simp

/-- C9: in a bulk run, a file of the walked directory whose path is not
excluded and whose name matches one of the nine patterns is appended to the
work list exactly once (and an excluded or unmatched file never), even though
the selection loop tests every (pattern, file) pair — because no file name
matches more than one of the nine patterns (`countP ≤ 1`). -/
theorem c9_selected_exactly_once (root : String) (files exclude_files : List String)
    (fn : String) (hnd : files.Nodup) (hmem : fn ∈ files) :
    (select_paths root files exclude_files).count (pyJoin root fn) =
      (if !(exclude_files.contains (pyJoin root fn)) && patterns.any (fun p => fnmatch fn p)
       then 1 else 0) ∧
    patterns.countP (fun p => fnmatch fn p) ≤ 1 := by
  have hpw : patterns.Pairwise (fun p q => ∀ m, ¬(fnmatch m p = true ∧ fnmatch m q = true)) := by
    have hdec : patterns.Pairwise (fun p q => patDisjointTest p q = true) := by decide
    exact hdec.imp (fun h => disj_of_test _ _ h)
  constructor
  · exact select_count_aux root files exclude_files fn hnd hmem patterns hpw
  · exact countP_le_one_of_pairwise _ _ (hpw.imp (fun h => h fn))

theorem c9_witness :
    (["keep.cpp", "skip.cpp", "README.md"] : List String).Nodup ∧
    "keep.cpp" ∈ (["keep.cpp", "skip.cpp", "README.md"] : List String) ∧
    (select_paths "src" ["keep.cpp", "skip.cpp", "README.md"] ["src/skip.cpp"]).count
        (pyJoin "src" "keep.cpp") =
      (if !((["src/skip.cpp"] : List String).contains (pyJoin "src" "keep.cpp")) &&
          patterns.any (fun p => fnmatch "keep.cpp" p) then 1 else 0) := by
  refine ⟨by decide, by decide, ?_⟩
  exact (c9_selected_exactly_once "src" ["keep.cpp", "skip.cpp", "README.md"] ["src/skip.cpp"]
    "keep.cpp" (by decide) (by decide)).1

/-! ## C1: composing twice

Machinery: what the stripping loops do to a second pass's input, whose lines
are the prolog emitted by the first pass followed by the first pass's
stripped body. -/

theorem delBlanks_cons_of_not (l : String) (ls : List String) (h : pyBlank l = false) :
    delBlanks (l :: ls) = l :: ls := by
  simp [delBlanks, h]

theorem delComments_append_of_all (c stop : String) (pr b : List String)
    (hall : ∀ l ∈ pr, (pyStartswith l c && !pyStartswith l stop) = true) :
    delComments c stop (pr ++ b) = delComments c stop b := by
  induction pr with
  | nil => rfl
  | cons l ls ih =>
    rw [List.cons_append]
    have hl := hall l (List.mem_cons_self _ _)
    simp only [delComments, hl, if_true]
    exact ih (fun x hx => hall x (List.mem_cons_of_mem _ hx))

theorem delComments_eq_self_of_head (c stop : String) (b : List String)
    (h : ∀ x, b.head? = some x → (pyStartswith x c && !pyStartswith x stop) = false) :
    delComments c stop b = b := by
  cases b with
  | nil => rfl
  | cons l ls =>
    have := h l rfl
    simp [delComments, this]

theorem delComments_head_false (c stop : String) (xs : List String) (x : String)
    (hx : (delComments c stop xs).head? = some x) :
    (pyStartswith x c && !pyStartswith x stop) = false := by
  induction xs with
  | nil => cases hx
  | cons l ls ih =>
    by_cases hc : (pyStartswith l c && !pyStartswith l stop) = true
    · rw [show delComments c stop (l :: ls) = delComments c stop ls from by
        simp [delComments, hc]] at hx
      exact ih hx
    · have hc' : (pyStartswith l c && !pyStartswith l stop) = false := by simpa using hc
      rw [show delComments c stop (l :: ls) = l :: ls from by simp [delComments, hc']] at hx
      rw [List.head?_cons] at hx
      exact Option.some.inj hx ▸ hc'

theorem delBlanks_suffix (xs : List String) : delBlanks xs <:+ xs := by
  induction xs with
  | nil => exact List.suffix_refl _
  | cons l ls ih =>
    by_cases h : pyBlank l = true
    · rw [show delBlanks (l :: ls) = delBlanks ls from by simp [delBlanks, h]]
      exact ih.trans (List.suffix_cons _ _)
    · have h' : pyBlank l = false := by simpa using h
      rw [delBlanks_cons_of_not l ls h']

theorem delComments_suffix (c stop : String) (xs : List String) :
    delComments c stop xs <:+ xs := by
  induction xs with
  | nil => exact List.suffix_refl _
  | cons l ls ih =>
    by_cases h : (pyStartswith l c && !pyStartswith l stop) = true
    · rw [show delComments c stop (l :: ls) = delComments c stop ls from by
        simp [delComments, h]]
      exact ih.trans (List.suffix_cons _ _)
    · have h' : (pyStartswith l c && !pyStartswith l stop) = false := by simpa using h
      rw [show delComments c stop (l :: ls) = l :: ls from by simp [delComments, h']]

theorem strip_lines_back_prefix (lines : List String) (c : String) :
    strip_lines_back lines c <+: lines := by
  rw [strip_lines_back]
  have h3 : delComments c (stop_str c) (delBlanks lines.reverse) <:+ lines.reverse :=
    (delComments_suffix c (stop_str c) _).trans (delBlanks_suffix _)
  have h4 := List.reverse_prefix.mpr h3
  rwa [List.reverse_reverse] at h4

theorem head?_eq_of_pfx (p f : List String) (hp : p <+: f) (hne : p ≠ []) :
    f.head? = p.head? := by
  obtain ⟨t, rfl⟩ := hp
  cases p with
  | nil => exact absurd rfl hne
  | cons a l => rfl

theorem rstripSp_append (p q : List Char) :
    rstripSp (p ++ q) = if rstripSp q = [] then rstripSp p else p ++ rstripSp q := by
  rw [rstripSp, rstripSp, rstripSp, List.reverse_append, List.dropWhile_append]
  by_cases h : q.reverse.dropWhile (· == ' ') = []
  · have hisE : (q.reverse.dropWhile (· == ' ')).isEmpty = true := by simp [h]
    rw [if_pos hisE, if_pos (by simp [h])]
  · have hisE : (q.reverse.dropWhile (· == ' ')).isEmpty = false := by
      simpa using h
    rw [if_neg (by simp [hisE]), if_neg (by simpa using h)]
    rw [List.reverse_append, List.reverse_reverse]

theorem startswith_extend (a b p : String) (h : pyStartswith a p = true) :
    pyStartswith (a ++ b) p = true := by
  rw [pyStartswith, List.isPrefixOf_iff_prefix] at h ⊢
  rw [String.data_append]
  exact h.trans (List.prefix_append _ _)

theorem startswith_false_extend (a b p : String) (hlen : p.length ≤ a.length)
    (h : pyStartswith a p = false) : pyStartswith (a ++ b) p = false := by
  cases hx : pyStartswith (a ++ b) p with
  | false => rfl
  | true =>
    rw [pyStartswith, List.isPrefixOf_iff_prefix, String.data_append] at hx
    have hpre : p.data <+: a.data :=
      List.prefix_of_prefix_length_le hx (List.prefix_append _ _) hlen
    have := List.isPrefixOf_iff_prefix.mpr hpre
    rw [pyStartswith] at h
    rw [h] at this
    cases this

theorem delOK_of_head (c stop hd r : String)
    (h1 : pyStartswith hd c = true)
    (h2 : pyStartswith hd stop = false)
    (hlen : stop.length ≤ hd.length) :
    (pyStartswith (hd ++ r) c && !pyStartswith (hd ++ r) stop) = true := by
  rw [startswith_extend hd r c h1, startswith_false_extend hd r stop hlen h2]
  rfl

theorem length_append_le (a b : String) : a.length ≤ (a ++ b).length := by
  rw [String.length_append]
  omega

theorem pyBlank_false_of_head (hd r : String) (hne : 2 ≤ hd.length) :
    pyBlank (hd ++ r) = false := by
  rw [pyBlank]
  have hlen : 2 ≤ (hd ++ r).length := le_trans hne (length_append_le hd r)
  have h1 : ((hd ++ r) == "") = false := by
    rw [beq_eq_false_iff_ne]
    intro he
    rw [he] at hlen
    exact absurd hlen (by decide)
  have h2 : ((hd ++ r) == "\n") = false := by
    rw [beq_eq_false_iff_ne]
    intro he
    rw [he] at hlen
    exact absurd hlen (by decide)
  rw [h1, h2]
  rfl

theorem pathline_shape (cc subpath : String) :
    path_line_string subpath cc ++ "\n" =
      (cc ++ "===- ") ++
        (subpath ++ (" " ++
          ((⟨List.replicate
              (80 - (cc ++ "===- " ++ subpath ++ " ").length -
                (path_line_suffix_for subpath).length) '-'⟩ : String) ++
            (path_line_suffix_for subpath ++ "\n")))) := by
  rw [path_line_string]
  simp [String.append_assoc]

theorem figlet_shape (cc l : String) :
    cc ++ "* " ++ l ++ " *" ++ "\n" = (cc ++ "* ") ++ (l ++ (" *" ++ "\n")) := by
  simp [String.append_assoc]

theorem dashes_shape (cc : String) :
    line_of_dashes cc =
      (cc ++ "===") ++ ((⟨List.replicate 70 '-'⟩ : String) ++ ("===//" ++ "\n")) := by
  rw [line_of_dashes]
  simp [String.append_assoc]

theorem license_delOK (cc c stop : String)
    (hL1 : pyStartswith (cc ++ " ") c = true)
    (hL2 : pyStartswith (cc ++ " ") stop = false)
    (hL3 : stop.length ≤ (cc ++ " ").length)
    (hLe : (pyStartswith (pyRstripSpaces (cc ++ " ")) c &&
      !pyStartswith (pyRstripSpaces (cc ++ " ")) stop) = true) (l : String) :
    (pyStartswith (pyRstripSpaces (cc ++ " " ++ l)) c &&
      !pyStartswith (pyRstripSpaces (cc ++ " " ++ l)) stop) = true := by
  rw [show pyRstripSpaces (cc ++ " " ++ l) = (⟨rstripSp ((cc ++ " ").data ++ l.data)⟩ : String)
    from by rw [pyRstripSpaces, String.data_append]]
  rw [rstripSp_append]
  by_cases h : rstripSp l.data = []
  · rw [if_pos h]
    exact hLe
  · rw [if_neg h]
    have hmk : (⟨(cc ++ " ").data ++ rstripSp l.data⟩ : String) =
        (cc ++ " ") ++ (⟨rstripSp l.data⟩ : String) := rfl
    rw [hmk]
    exact delOK_of_head c stop (cc ++ " ") _ hL1 hL2 hL3

theorem prolog_delOK (cc c stop : String) (render : String → List String)
    (tu sub : String) (lic : List String) (fig : Bool)
    (hP1 : pyStartswith (cc ++ "===- ") c = true)
    (hP2 : pyStartswith (cc ++ "===- ") stop = false)
    (hP3 : stop.length ≤ (cc ++ "===- ").length)
    (hF1 : pyStartswith (cc ++ "* ") c = true)
    (hF2 : pyStartswith (cc ++ "* ") stop = false)
    (hF3 : stop.length ≤ (cc ++ "* ").length)
    (hD1 : pyStartswith (cc ++ "===") c = true)
    (hD2 : pyStartswith (cc ++ "===") stop = false)
    (hD3 : stop.length ≤ (cc ++ "===").length)
    (hL1 : pyStartswith (cc ++ " ") c = true)
    (hL2 : pyStartswith (cc ++ " ") stop = false)
    (hL3 : stop.length ≤ (cc ++ " ").length)
    (hLe : (pyStartswith (pyRstripSpaces (cc ++ " ")) c &&
      !pyStartswith (pyRstripSpaces (cc ++ " ")) stop) = true) :
    ∀ x ∈ get_path_line sub cc ++
      ((if fig then figlet render tu cc ++ [line_of_dashes cc] else []) ++
        (get_license cc lic ++ [line_of_dashes cc])),
      (pyStartswith x c && !pyStartswith x stop) = true := by
  have hdash : (pyStartswith (line_of_dashes cc) c && !pyStartswith (line_of_dashes cc) stop)
      = true := by
    rw [dashes_shape cc]
    exact delOK_of_head c stop (cc ++ "===") _ hD1 hD2 hD3
  intro x hx
  rw [List.mem_append] at hx
  rcases hx with hx | hx
  · rw [get_path_line, List.mem_singleton] at hx
    rw [hx, pathline_shape cc sub]
    exact delOK_of_head c stop (cc ++ "===- ") _ hP1 hP2 hP3
  rw [List.mem_append] at hx
  rcases hx with hx | hx
  · cases fig with
    | false => simp at hx
    | true =>
      rw [if_pos rfl, List.mem_append] at hx
      rcases hx with hx | hx
      · rw [figlet, List.mem_map] at hx
        obtain ⟨a, -, ha⟩ := hx
        rw [← ha, figlet_shape cc a]
        exact delOK_of_head c stop (cc ++ "* ") _ hF1 hF2 hF3
      · rw [List.mem_singleton] at hx
        rw [hx]
        exact hdash
  rw [List.mem_append] at hx
  rcases hx with hx | hx
  · rw [get_license, List.mem_map] at hx
    obtain ⟨y, hy, hyx⟩ := hx
    rw [List.mem_map] at hy
    obtain ⟨a, -, ha⟩ := hy
    rw [← hyx, ← ha]
    exact license_delOK cc c stop hL1 hL2 hL3 hLe a
  · rw [List.mem_singleton] at hx
    rw [hx]
    exact hdash

theorem get_shebang_some (content : List String) (s : String)
    (h : get_shebang content = some s) : pyStartswith s "#!" = true := by
  cases content with
  | nil => cases h
  | cons l ls =>
    by_cases hb : pyStartswith l "#!" = true
    · rw [get_shebang, if_pos hb] at h
      rw [Option.some.inj h] at hb
      exact hb
    · rw [get_shebang, if_neg hb] at h
      cases h

theorem strip_pass2 (cc c stop : String) (render : String → List String)
    (tu sub : String) (lic : List String) (fig : Bool) (b1 : List String)
    (hc : pyStrip cc = c) (hstop : stop_str c = stop)
    (hblank : pyBlank (path_line_string sub cc ++ "\n") = false)
    (hall : ∀ x ∈ get_path_line sub cc ++
      ((if fig then figlet render tu cc ++ [line_of_dashes cc] else []) ++
        (get_license cc lic ++ [line_of_dashes cc])),
      (pyStartswith x c && !pyStartswith x stop) = true)
    (hb1head : ∀ x, b1.head? = some x → (pyStartswith x c && !pyStartswith x stop) = false)
    (hb1back : strip_lines_back b1 c = b1) :
    strip_leading_and_trailing_lines
      ((path_line_string sub cc ++ "\n") ::
        ((if fig then figlet render tu cc ++ [line_of_dashes cc] else []) ++
          (get_license cc lic ++ line_of_dashes cc :: b1))) cc = b1 := by
  show strip_lines_back (strip_lines_front _ (pyStrip cc)) (pyStrip cc) = b1
  rw [hc, strip_lines_front, hstop]
  rw [delBlanks_cons_of_not _ _ hblank]
  have hsplit : (path_line_string sub cc ++ "\n") ::
      ((if fig then figlet render tu cc ++ [line_of_dashes cc] else []) ++
        (get_license cc lic ++ line_of_dashes cc :: b1)) =
      (get_path_line sub cc ++
        ((if fig then figlet render tu cc ++ [line_of_dashes cc] else []) ++
          (get_license cc lic ++ [line_of_dashes cc]))) ++ b1 := by
    simp [get_path_line]
  rw [hsplit]
  rw [delComments_append_of_all c stop _ b1 hall]
  rw [delComments_eq_self_of_head c stop b1 hb1head]
  exact hb1back

theorem get_shebang_cons (l : String) (ls : List String) :
    get_shebang (l :: ls) = if pyStartswith l "#!" = true then some l else none := rfl

theorem drop_shebang_cons (l : String) (ls : List String) :
    drop_shebang (l :: ls) = if pyStartswith l "#!" = true then ls else l :: ls := rfl

/-- C1 (amended): feeding `boilerplate`'s output back in as the file's
content (same path, base path, license text, comment style and banner
setting) reproduces that output exactly, for every comment style of the
program's comment table (`//`, `#`, `'# '`), **provided** the backward
stripping pass makes no further change when reapplied to the once-stripped
body.  (The proviso is forced: comment deletion can expose a trailing blank
line that only the second pass removes — see the counterexample.) -/
theorem c1_boilerplate_idempotent
    (isdir : String → Bool) (render : String → List String)
    (path base_path : String) (license_text content out : List String)
    (ccOpt : Option String) (fig : Bool)
    (hcc : resolve_comment path ccOpt = "//" ∨ resolve_comment path ccOpt = "#" ∨
      resolve_comment path ccOpt = "# ")
    (hok : boilerplate isdir render path base_path license_text ccOpt fig content =
      Except.ok out)
    (hback : strip_lines_back
        (strip_leading_and_trailing_lines (drop_shebang content) (resolve_comment path ccOpt))
        (pyStrip (resolve_comment path ccOpt)) =
      strip_leading_and_trailing_lines (drop_shebang content) (resolve_comment path ccOpt)) :
    boilerplate isdir render path base_path license_text ccOpt fig out = Except.ok out := by
  obtain ⟨h1, h2⟩ : isdir base_path = true ∧
      pySliceTo path (normalize_base base_path).length = normalize_base base_path := by
    by_cases h1 : isdir base_path = true
    · by_cases h2 : pySliceTo path (normalize_base base_path).length = normalize_base base_path
      · exact ⟨h1, h2⟩
      · rw [boilerplate_error_inside isdir render path base_path license_text ccOpt fig content
          h1 h2] at hok
        cases hok
    · have h1' : isdir base_path = false := by simpa using h1
      rw [boilerplate_error_dir isdir render path base_path license_text ccOpt fig content h1']
        at hok
      cases hok
  obtain ⟨c, stop, hc, hstop, hP1, hP2, hP3, hF1, hF2, hF3, hD1, hD2, hD3, hL1, hL2, hL3, hLe,
      hPlen2, hsb1, hsb2⟩ :
      ∃ c stop, pyStrip (resolve_comment path ccOpt) = c ∧ stop_str c = stop ∧
        pyStartswith (resolve_comment path ccOpt ++ "===- ") c = true ∧
        pyStartswith (resolve_comment path ccOpt ++ "===- ") stop = false ∧
        stop.length ≤ (resolve_comment path ccOpt ++ "===- ").length ∧
        pyStartswith (resolve_comment path ccOpt ++ "* ") c = true ∧
        pyStartswith (resolve_comment path ccOpt ++ "* ") stop = false ∧
        stop.length ≤ (resolve_comment path ccOpt ++ "* ").length ∧
        pyStartswith (resolve_comment path ccOpt ++ "===") c = true ∧
        pyStartswith (resolve_comment path ccOpt ++ "===") stop = false ∧
        stop.length ≤ (resolve_comment path ccOpt ++ "===").length ∧
        pyStartswith (resolve_comment path ccOpt ++ " ") c = true ∧
        pyStartswith (resolve_comment path ccOpt ++ " ") stop = false ∧
        stop.length ≤ (resolve_comment path ccOpt ++ " ").length ∧
        (pyStartswith (pyRstripSpaces (resolve_comment path ccOpt ++ " ")) c &&
          !pyStartswith (pyRstripSpaces (resolve_comment path ccOpt ++ " ")) stop) = true ∧
        2 ≤ (resolve_comment path ccOpt ++ "===- ").length ∧
        pyStartswith (resolve_comment path ccOpt ++ "===- ") "#!" = false ∧
        ("#!" : String).length ≤ (resolve_comment path ccOpt ++ "===- ").length := by
    rcases hcc with h | h | h <;> rw [h]
    · exact ⟨"//", "///", by decide⟩
    · exact ⟨"#", "##", by decide⟩
    · exact ⟨"#", "##", by decide⟩
  have hall := prolog_delOK (resolve_comment path ccOpt) c stop render
    (tu_name_from_path (subpath_of path base_path)) (subpath_of path base_path) license_text
    fig hP1 hP2 hP3 hF1 hF2 hF3 hD1 hD2 hD3 hL1 hL2 hL3 hLe
  have hblank : pyBlank (path_line_string (subpath_of path base_path)
      (resolve_comment path ccOpt) ++ "\n") = false := by
    rw [pathline_shape]
    exact pyBlank_false_of_head _ _ hPlen2
  have hplsb : pyStartswith (path_line_string (subpath_of path base_path)
      (resolve_comment path ccOpt) ++ "\n") "#!" = false := by
    rw [pathline_shape]
    exact startswith_false_extend _ _ _ hsb2 hsb1
  have hB1def : strip_leading_and_trailing_lines (drop_shebang content)
      (resolve_comment path ccOpt) =
      strip_lines_back (strip_lines_front (drop_shebang content) c) c := by
    show strip_lines_back (strip_lines_front _ (pyStrip _)) (pyStrip _) = _
    rw [hc]
  have hb1head : ∀ x, (strip_leading_and_trailing_lines (drop_shebang content)
      (resolve_comment path ccOpt)).head? = some x →
      (pyStartswith x c && !pyStartswith x stop) = false := by
    intro x hx
    rw [hB1def] at hx
    have hpre := strip_lines_back_prefix (strip_lines_front (drop_shebang content) c) c
    have hne : strip_lines_back (strip_lines_front (drop_shebang content) c) c ≠ [] := by
      intro hemp
      rw [hemp] at hx
      cases hx
    have hhead := (head?_eq_of_pfx _ _ hpre hne).trans hx
    rw [strip_lines_front, hstop] at hhead
    exact delComments_head_false c stop _ x hhead
  have hb1back : strip_lines_back (strip_leading_and_trailing_lines (drop_shebang content)
      (resolve_comment path ccOpt)) c =
      strip_leading_and_trailing_lines (drop_shebang content) (resolve_comment path ccOpt) := by
    rw [← hc]
    exact hback
  have hstrip := strip_pass2 (resolve_comment path ccOpt) c stop render
    (tu_name_from_path (subpath_of path base_path)) (subpath_of path base_path) license_text
    fig (strip_leading_and_trailing_lines (drop_shebang content) (resolve_comment path ccOpt))
    hc hstop hblank hall hb1head hb1back
  rw [boilerplate_ok isdir render path base_path license_text ccOpt fig content h1 h2] at hok
  rw [boilerplate_ok isdir render path base_path license_text ccOpt fig out h1 h2]
  have hout := (Except.ok.inj hok).symm
  cases hsh : get_shebang content with
  | some s =>
    have hs := get_shebang_some content s hsh
    rw [hsh] at hout
    have hout2 : out = s :: ((path_line_string (subpath_of path base_path)
        (resolve_comment path ccOpt) ++ "\n") ::
        ((if fig then figlet render (tu_name_from_path (subpath_of path base_path))
            (resolve_comment path ccOpt) ++ [line_of_dashes (resolve_comment path ccOpt)]
          else []) ++
          (get_license (resolve_comment path ccOpt) license_text ++
            line_of_dashes (resolve_comment path ccOpt) ::
              strip_leading_and_trailing_lines (drop_shebang content)
                (resolve_comment path ccOpt)))) := by
      rw [hout]
      simp [get_path_line]
    rw [hout2, get_shebang_cons, if_pos hs, drop_shebang_cons, if_pos hs, hstrip]
    simp [get_path_line]
  | none =>
    rw [hsh] at hout
    have hout2 : out = (path_line_string (subpath_of path base_path)
        (resolve_comment path ccOpt) ++ "\n") ::
        ((if fig then figlet render (tu_name_from_path (subpath_of path base_path))
            (resolve_comment path ccOpt) ++ [line_of_dashes (resolve_comment path ccOpt)]
          else []) ++
          (get_license (resolve_comment path ccOpt) license_text ++
            line_of_dashes (resolve_comment path ccOpt) ::
              strip_leading_and_trailing_lines (drop_shebang content)
                (resolve_comment path ccOpt))) := by
      rw [hout]
      simp [get_path_line]
    have hnsb : ¬(pyStartswith (path_line_string (subpath_of path base_path)
        (resolve_comment path ccOpt) ++ "\n") "#!" = true) := by
      rw [hplsb]
      exact Bool.false_ne_true
    rw [hout2, get_shebang_cons, if_neg hnsb, drop_shebang_cons, if_neg hnsb, hstrip]
    simp [get_path_line]

set_option maxRecDepth 8192 in
/-- C1 (counterexample): composing twice is *not* always composing once.
With body `x\n`, blank line, `// c\n`, the first pass deletes the trailing
comment line and leaves the newly exposed trailing blank line; the second
pass deletes that blank line too, so the outputs differ. -/
theorem c1_counterexample :
    boilerplate (fun p => p == "/b") (fun _ => []) "/b/a.cpp" "/b" ["MIT\n"] none false
        ["x\n", "\n", "// c\n"] =
      Except.ok
        ["//===- a.cpp --------------------------------------------------------------===//\n",
         "// MIT\n",
         "//===----------------------------------------------------------------------===//\n",
         "x\n", "\n"] ∧
    boilerplate (fun p => p == "/b") (fun _ => []) "/b/a.cpp" "/b" ["MIT\n"] none false
        ["//===- a.cpp --------------------------------------------------------------===//\n",
         "// MIT\n",
         "//===----------------------------------------------------------------------===//\n",
         "x\n", "\n"] =
      Except.ok
        ["//===- a.cpp --------------------------------------------------------------===//\n",
         "// MIT\n",
         "//===----------------------------------------------------------------------===//\n",
         "x\n"] ∧
    (["//===- a.cpp --------------------------------------------------------------===//\n",
      "// MIT\n",
      "//===----------------------------------------------------------------------===//\n",
      "x\n"] : List String) ≠
      ["//===- a.cpp --------------------------------------------------------------===//\n",
       "// MIT\n",
       "//===----------------------------------------------------------------------===//\n",
       "x\n", "\n"] := by
  refine ⟨by decide, by decide, by decide⟩

set_option maxRecDepth 8192 in
theorem c1_witness :
    boilerplate (fun p => p == "/b") (fun _ => []) "/b/a.cpp" "/b" ["MIT\n"] none false
        ["x\n"] =
      Except.ok
        ["//===- a.cpp --------------------------------------------------------------===//\n",
         "// MIT\n",
         "//===----------------------------------------------------------------------===//\n",
         "x\n"] ∧
    boilerplate (fun p => p == "/b") (fun _ => []) "/b/a.cpp" "/b" ["MIT\n"] none false
        ["//===- a.cpp --------------------------------------------------------------===//\n",
         "// MIT\n",
         "//===----------------------------------------------------------------------===//\n",
         "x\n"] =
      Except.ok
        ["//===- a.cpp --------------------------------------------------------------===//\n",
         "// MIT\n",
         "//===----------------------------------------------------------------------===//\n",
         "x\n"] := by
  refine ⟨by decide, ?_⟩
  exact c1_boilerplate_idempotent (fun p => p == "/b") (fun _ => []) "/b/a.cpp" "/b" ["MIT\n"]
    ["x\n"]
    ["//===- a.cpp --------------------------------------------------------------===//\n",
     "// MIT\n",
     "//===----------------------------------------------------------------------===//\n",
     "x\n"]
    none false (Or.inl (by decide)) (by decide) (by decide)
